import Mathlib

/-!
Verification of the incremental-ingestion administrative router
(src/plugins/catalog-backend-module-incremental-ingestion/src/router/routes.ts)
against its design specification.

The router itself is embedded handler by handler. The database manager
(IncrementalIngestionDatabaseManager) is not part of the repository sources,
so its read operations and the atomic-store step relation are modelled from
the words of the specification; every such definition carries a doc comment
starting with Modelled from the spec.
-/

namespace IncrementalIngestion

/-- One row of the ingestion record table: status is the free string the routes
compare against (resting, ingesting, canceling, complete, error). -/
structure IngestionRecord where
  id : Nat
  provider_name : String
  status : String
  next_action : String
  next_action_at : Int
  ingestion_completed_at : Option Int
  last_error : Option String
deriving DecidableEq

/-- One resumption checkpoint within an ingestion cycle. -/
structure IngestionMark where
  id : Nat
  ingestion_record_id : Nat
  cursor : String
  sequence : Nat
  created_at : Int
deriving DecidableEq

/-- The durable state behind the manager: the record table and the mark table. -/
structure Store where
  records : List IngestionRecord
  marks : List IngestionMark
deriving DecidableEq

/-- Modelled from the spec: the Record Store operation getCurrent(provider) of
IncrementalIngestionDatabaseManager, which is not under src. It returns the single
non-resting record for a provider, or none if the provider is resting or unknown. -/
def getCurrentIngestionRecord (s : Store) (provider : String) : Option IngestionRecord :=
  s.records.find? (fun r => r.provider_name == provider && r.status != "resting")

/-- Modelled from the spec: listProviders() returns the distinct provider names known
to the store, from any historical record. -/
def listProviders (s : Store) : List String :=
  (s.records.map (fun r => r.provider_name)).dedup

/-- Modelled from the spec: healthcheck() returns a snapshot of all records whose
status is non-resting, for duplicate detection. -/
def healthcheck (s : Store) : List IngestionRecord :=
  s.records.filter (fun r => r.status != "resting")

/-- Ascending order on marks by sequence number. -/
def markLE (a b : IngestionMark) : Prop := a.sequence ≤ b.sequence

instance : DecidableRel markLE := fun a b => Nat.decLe a.sequence b.sequence

instance : IsTotal IngestionMark markLE := ⟨fun a b => Nat.le_total a.sequence b.sequence⟩

instance : IsTrans IngestionMark markLE := ⟨fun _ _ _ h h2 => Nat.le_trans h h2⟩

/-- Modelled from the spec: the Mark Store operation getAll(recordId), the ordered
sequence of marks of one record, ascending by sequence. -/
def getAllMarks (s : Store) (recordId : Nat) : List IngestionMark :=
  (s.marks.filter (fun m => m.ingestion_record_id == recordId)).insertionSort markLE

/-- The record owning a mark, if any. -/
def recordOfMark (s : Store) (m : IngestionMark) : Option IngestionRecord :=
  s.records.find? (fun r => r.id == m.ingestion_record_id)

/-- Modelled from the spec: whether clearFinished(provider) deletes a mark, namely when
its record belongs to the provider, is terminal (complete or error), and finished longer
ago than the retention threshold. -/
def markExpired (s : Store) (provider : String) (now retention : Int)
    (m : IngestionMark) : Bool :=
  match recordOfMark s m with
  | none => false
  | some r =>
      r.provider_name == provider && (r.status == "complete" || r.status == "error") &&
        (match r.ingestion_completed_at with
         | none => false
         | some t => decide (t + retention ≤ now))

/-- Modelled from the spec: clearFinished(provider) deletes the expired marks of the
provider and returns the count deleted. -/
def clearFinishedIngestions (s : Store) (provider : String) (now retention : Int) :
    Store × Nat :=
  let remaining := s.marks.filter (fun m => !markExpired s provider now retention m)
  ({ records := s.records, marks := remaining }, s.marks.length - remaining.length)

/-- Body of the GET health response. -/
structure HealthResponse where
  healthy : Bool
  duplicateIngestions : Option (List String)
deriving DecidableEq

/-- Body and HTTP status of the GET provider status response; the outer Option on
last_error is presence of the field, the inner one nullability of the column. -/
structure StatusResponse where
  httpStatus : Nat
  success : Bool
  current_action : Option String
  next_action_at : Option Int
  last_error : Option (Option String)
deriving DecidableEq

/-- Body and HTTP status of the trigger, start and cancel responses. -/
structure MsgResponse where
  httpStatus : Nat
  success : Bool
  message : String
deriving DecidableEq

/-- Body and HTTP status of the GET provider marks response. -/
structure MarksResponse where
  httpStatus : Nat
  success : Bool
  records : Option (List IngestionMark)
  message : Option String
  last_error : Option String
deriving DecidableEq

/-- Body and HTTP status of the DELETE provider marks response. -/
structure DeleteMarksResponse where
  httpStatus : Nat
  success : Bool
  message : String
  deletions : Nat
deriving DecidableEq

/-- Body and HTTP status of the POST provider delta response. -/
structure DeltaResponse where
  httpStatus : Nat
  success : Bool
  provider : String
  message : String
deriving DecidableEq

/-- The fields object the cancel route passes to updateByName (routes.ts lines 168 to
173). -/
structure RecordUpdate where
  next_action : String
  ingestion_completed_at : Option Int
  next_action_at : Int
  status : String
deriving DecidableEq

/-- The state-mutating manager operations a route can invoke. -/
inductive MgrCall where
  | triggerNextProviderAction (provider : String)
  | setProviderComplete (ingestionId : Nat)
  | setProviderCanceling (ingestionId : Nat)
  | updateByName (provider : String) (update : RecordUpdate)
deriving DecidableEq

/-- Embedding of the JavaScript expression providers.filter((e, i, a) =>
a.indexOf(e) !== i) from the health route: the occurrences whose index differs from
the index of the first occurrence. -/
def laterOccurrences (a : List String) : List String :=
  (a.enum.filter (fun p => a.indexOf p.2 != p.1)).map (fun p => p.2)

/-- Embedding of spreading a JavaScript Set built from a list: keeps the first
occurrence of each element not already seen, in order. -/
def setDedup : List String → List String → List String
  | _, [] => []
  | seen, x :: rest =>
      if x ∈ seen then setDedup seen rest else x :: setDedup (x :: seen) rest

/-- The elements of a list with duplicates removed, first occurrences kept, as the
JavaScript spread of a Set does. -/
def jsSetOf (l : List String) : List String := setDedup [] l

/-- The GET health handler (routes.ts lines 45 to 57). -/
def healthHandler (s : Store) : HealthResponse :=
  let records := healthcheck s
  let providers := records.map (fun r => r.provider_name)
  let duplicates := jsSetOf (laterOccurrences providers)
  if duplicates.length > 0 then
    { healthy := false, duplicateIngestions := some duplicates }
  else
    { healthy := true, duplicateIngestions := none }

/-- The GET provider status handler (routes.ts lines 66 to 98), paired with the list of
state-mutating manager calls it makes. -/
def statusHandler (s : Store) (provider : String) : StatusResponse × List MgrCall :=
  match getCurrentIngestionRecord s provider with
  | some record =>
      ({ httpStatus := 200, success := true,
         current_action := some record.status,
         next_action_at := some record.next_action_at,
         last_error := some record.last_error }, [])
  | none =>
      if provider ∈ listProviders s then
        ({ httpStatus := 200, success := true,
           current_action := some "rest complete, waiting to start",
           next_action_at := none, last_error := none }, [])
      else
        ({ httpStatus := 404, success := false,
           current_action := none, next_action_at := none,
           last_error := some (some ("Provider '" ++ provider ++ "' not found")) }, [])

/-- The POST provider trigger handler (routes.ts lines 101 to 125). -/
def triggerHandler (s : Store) (provider : String) : MsgResponse × List MgrCall :=
  match getCurrentIngestionRecord s provider with
  | some _ =>
      ({ httpStatus := 200, success := true,
         message := provider ++ ": Next action triggered." },
       [MgrCall.triggerNextProviderAction provider])
  | none =>
      if provider ∈ listProviders s then
        ({ httpStatus := 200, success := true,
           message := "Unable to trigger next action (provider is restarting)" }, [])
      else
        ({ httpStatus := 404, success := false,
           message := "Provider '" ++ provider ++ "' not found" }, [])

/-- The POST provider start handler (routes.ts lines 129 to 159). -/
def startHandler (s : Store) (provider : String) : MsgResponse × List MgrCall :=
  match getCurrentIngestionRecord s provider with
  | some record =>
      ({ httpStatus := 200, success := true,
         message := provider ++ ": Next cycle triggered." },
       [if record.status == "resting" then MgrCall.setProviderComplete record.id
        else MgrCall.setProviderCanceling record.id])
  | none =>
      if provider ∈ listProviders s then
        ({ httpStatus := 200, success := true,
           message := "Provider is already restarting" }, [])
      else
        ({ httpStatus := 404, success := false,
           message := "Provider '" ++ provider ++ "' not found" }, [])

/-- The POST provider cancel handler (routes.ts lines 162 to 193); now is the clock
reading at the time of the request, in milliseconds. -/
def cancelHandler (s : Store) (provider : String) (now : Int) : MsgResponse × List MgrCall :=
  match getCurrentIngestionRecord s provider with
  | some _ =>
      ({ httpStatus := 200, success := true,
         message := provider ++ ": Current ingestion canceled." },
       [MgrCall.updateByName provider
          { next_action := "nothing (done)",
            ingestion_completed_at := some now,
            next_action_at := now + 24 * 60 * 60 * 1000,
            status := "resting" }])
  | none =>
      if provider ∈ listProviders s then
        ({ httpStatus := 200, success := true,
           message := "Provider is currently restarting, please wait." }, [])
      else
        ({ httpStatus := 404, success := false,
           message := "Provider '" ++ provider ++ "' not found" }, [])

/-- The GET provider marks handler (routes.ts lines 203 to 229). -/
def marksHandler (s : Store) (provider : String) : MarksResponse × List MgrCall :=
  match getCurrentIngestionRecord s provider with
  | some record =>
      ({ httpStatus := 200, success := true,
         records := some (getAllMarks s record.id),
         message := none, last_error := none }, [])
  | none =>
      if provider ∈ listProviders s then
        ({ httpStatus := 200, success := true, records := none,
           message := some "No records yet (provider is restarting)",
           last_error := none }, [])
      else
        ({ httpStatus := 404, success := false, records := none, message := none,
           last_error := some ("Provider '" ++ provider ++ "' not found") }, [])

/-- The DELETE provider marks handler (routes.ts lines 231 to 240): it always clears
and reports, with no known-provider check. -/
def deleteMarksHandler (s : Store) (provider : String) (now retention : Int) :
    DeleteMarksResponse × Store :=
  let cleared := clearFinishedIngestions s provider now retention
  ({ httpStatus := 200, success := true,
     message := "Expired marks for provider '" ++ provider ++ "' removed.",
     deletions := cleared.2 }, cleared.1)

/-- The possible behaviors of the event broker collaborator during one delta request:
missing, publishing successfully, or throwing an error whose stringified form is
carried. -/
inductive BrokerBehavior where
  | unavailable
  | publishes
  | failing (stringifiedError : String)
deriving DecidableEq

/-- A publish call made on the event broker: topic and payload. -/
structure PublishAttempt (α : Type) where
  topic : String
  eventPayload : α
deriving DecidableEq

/-- The POST provider delta handler (routes.ts lines 242 to 277), paired with the
publish attempt it makes, if any. -/
def deltaHandler {α : Type} (broker : BrokerBehavior) (provider : String) (body : α) :
    DeltaResponse × Option (PublishAttempt α) :=
  let topic := provider ++ "-push"
  match broker with
  | BrokerBehavior.unavailable =>
      ({ httpStatus := 500, success := false, provider := provider,
         message := "The payload could not be processed!" }, none)
  | BrokerBehavior.publishes =>
      ({ httpStatus := 200, success := true, provider := provider,
         message := "Payload submitted." },
       some { topic := topic, eventPayload := body })
  | BrokerBehavior.failing e =>
      ({ httpStatus := 500, success := false, provider := provider,
         message := "There was an error submitting the payload: " ++ e },
       some { topic := topic, eventPayload := body })

/-- Whether pat occurs as a contiguous segment of the second list. -/
def containsSeg (pat : List Char) : List Char → Bool
  | [] => pat.isEmpty
  | c :: rest => pat.isPrefixOf (c :: rest) || containsSeg pat rest

/-- The semantics of updateByName on one record: partial update of the four passed
fields, never of the provider name or the id. -/
def applyUpdate (r : IngestionRecord) (u : RecordUpdate) : IngestionRecord :=
  { r with
    status := u.status, next_action := u.next_action,
    next_action_at := u.next_action_at,
    ingestion_completed_at := u.ingestion_completed_at }

/-- The number of non-resting records of one provider. -/
def activeCount (s : Store) (p : String) : Nat :=
  (s.records.filter (fun r => r.provider_name == p && r.status != "resting")).length

/-- The core invariant: every provider has at most one non-resting record. -/
def AtMostOneActive (s : Store) : Prop := ∀ p, activeCount s p ≤ 1

/-- Modelled from the spec: the atomic read-modify-write operations of the State
Machine Controller and the stores (IncrementalIngestionDatabaseManager is not under
src). A new cycle record is created only by an atomic conditional insert that checks
no current record exists; every record update is a compare-and-swap keyed on record id
and expected non-resting status; mark appends touch no record. Every state-mutating
operation is a single atomic step, so a concurrent execution of triggers is an
interleaving, that is a sequence, of these steps. -/
inductive StoreStep : Store → Store → Prop
  | createCycle (s : Store) (r : IngestionRecord) :
      getCurrentIngestionRecord s r.provider_name = none →
      r.status = "ingesting" →
      StoreStep s { records := r :: s.records, marks := s.marks }
  | condUpdate (s : Store) (rid : Nat) (expected : String) (u : RecordUpdate) :
      expected ≠ "resting" →
      StoreStep s
        { records := s.records.map (fun r =>
            if r.id == rid && r.status == expected then applyUpdate r u else r),
          marks := s.marks }
  | appendMark (s : Store) (m : IngestionMark) :
      StoreStep s { records := s.records, marks := m :: s.marks }

/-- Reachability by any interleaving of atomic store steps. -/
def StoreSteps : Store → Store → Prop := Relation.ReflTransGen StoreStep

lemma mem_laterOccurrences (a : List String) (x : String) :
    x ∈ laterOccurrences a ↔ ∃ i, a[i]? = some x ∧ a.indexOf x ≠ i := by
  simp only [laterOccurrences, List.mem_map, List.mem_filter]
  constructor
  · rintro ⟨⟨i, y⟩, ⟨hmem, hcond⟩, rfl⟩
    refine ⟨i, List.mk_mem_enum_iff_getElem?.mp hmem, ?_⟩
    simpa using hcond
  · rintro ⟨i, hget, hidx⟩
    exact ⟨(i, x), ⟨List.mk_mem_enum_iff_getElem?.mpr hget, by simpa using hidx⟩, rfl⟩

lemma exists_second_occurrence_iff (a : List String) (x : String) :
    (∃ i, a[i]? = some x ∧ a.indexOf x ≠ i) ↔ 2 ≤ a.count x := by
  induction a with
  | nil => simp
  | cons y t ih =>
    by_cases hxy : x = y
    · subst hxy
      rw [List.count_cons_self]
      constructor
      · rintro ⟨i, hget, hidx⟩
        match i, hget, hidx with
        | 0, hget, hidx => simp [List.indexOf_cons_self] at hidx
        | j + 1, hget, hidx =>
          rw [List.getElem?_cons_succ] at hget
          have hx : x ∈ t := List.mem_iff_getElem?.mpr ⟨j, hget⟩
          have hpos : 0 < t.count x := List.count_pos_iff.mpr hx
          omega
      · intro h2
        have hx : x ∈ t := List.count_pos_iff.mp (by omega)
        obtain ⟨j, hj⟩ := List.mem_iff_getElem?.mp hx
        refine ⟨j + 1, ?_, ?_⟩
        · rw [List.getElem?_cons_succ]; exact hj
        · simp [List.indexOf_cons_self]
    · have hyx : y ≠ x := fun h => hxy h.symm
      rw [List.count_cons_of_ne hxy]
      constructor
      · rintro ⟨i, hget, hidx⟩
        match i, hget, hidx with
        | 0, hget, hidx =>
          rw [List.getElem?_cons_zero] at hget
          exact absurd (Option.some_inj.mp hget).symm hxy
        | j + 1, hget, hidx =>
          rw [List.getElem?_cons_succ] at hget
          rw [List.indexOf_cons_ne t hyx] at hidx
          exact ih.mp ⟨j, hget, fun h => hidx (by rw [h])⟩
      · intro h2
        obtain ⟨j, hget, hne⟩ := ih.mpr h2
        refine ⟨j + 1, ?_, ?_⟩
        · rw [List.getElem?_cons_succ]; exact hget
        · rw [List.indexOf_cons_ne t hyx]
          omega

lemma mem_laterOccurrences_iff_count (a : List String) (x : String) :
    x ∈ laterOccurrences a ↔ 2 ≤ a.count x :=
  (mem_laterOccurrences a x).trans (exists_second_occurrence_iff a x)

lemma mem_setDedup (seen l : List String) (x : String) :
    x ∈ setDedup seen l ↔ x ∈ l ∧ x ∉ seen := by
  induction l generalizing seen with
  | nil => simp [setDedup]
  | cons y rest ih =>
    by_cases hy : y ∈ seen
    · rw [setDedup, if_pos hy, ih seen]
      constructor
      · rintro ⟨h1, h2⟩
        exact ⟨List.mem_cons_of_mem y h1, h2⟩
      · rintro ⟨h1, h2⟩
        rcases List.mem_cons.mp h1 with rfl | h1
        · exact absurd hy h2
        · exact ⟨h1, h2⟩
    · rw [setDedup, if_neg hy]
      rw [List.mem_cons, ih (y :: seen)]
      constructor
      · rintro (rfl | ⟨h1, h2⟩)
        · exact ⟨List.mem_cons_self x rest, hy⟩
        · exact ⟨List.mem_cons_of_mem y h1,
            fun hx => h2 (List.mem_cons_of_mem y hx)⟩
      · rintro ⟨h1, h2⟩
        rcases List.mem_cons.mp h1 with rfl | h1
        · exact Or.inl rfl
        · by_cases hxy : x = y
          · exact Or.inl hxy
          · exact Or.inr ⟨h1, fun hx => (List.mem_cons.mp hx).elim hxy h2⟩

lemma nodup_setDedup (seen l : List String) : (setDedup seen l).Nodup := by
  induction l generalizing seen with
  | nil => simp [setDedup]
  | cons y rest ih =>
    by_cases hy : y ∈ seen
    · rw [setDedup, if_pos hy]; exact ih seen
    · rw [setDedup, if_neg hy]
      refine List.nodup_cons.mpr ⟨?_, ih (y :: seen)⟩
      intro hmem
      exact ((mem_setDedup _ _ _).mp hmem).2 (List.mem_cons_self y seen)

lemma mem_jsSetOf (l : List String) (x : String) : x ∈ jsSetOf l ↔ x ∈ l := by
  rw [jsSetOf, mem_setDedup]
  simp

lemma nodup_jsSetOf (l : List String) : (jsSetOf l).Nodup := nodup_setDedup [] l

/-- C1: the health endpoint reports healthy true exactly when no provider name appears
more than once among the non-resting records returned by the health check; when some
provider appears more than once, the response has healthy false and duplicateIngestions
lists each such provider exactly once; and duplicateIngestions is absent when healthy
is true. -/
theorem health_route_duplicate_detection (s : Store) :
    ((healthHandler s).healthy = true ↔
        ∀ p, ((healthcheck s).map (fun r => r.provider_name)).count p ≤ 1)
    ∧ ((healthHandler s).healthy = true → (healthHandler s).duplicateIngestions = none)
    ∧ ((healthHandler s).healthy = false →
        ∃ d, (healthHandler s).duplicateIngestions = some d ∧
          ∀ p, d.count p =
            if 2 ≤ ((healthcheck s).map (fun r => r.provider_name)).count p
            then 1 else 0) := by
  have hmem : ∀ x, x ∈ jsSetOf (laterOccurrences ((healthcheck s).map
      (fun r => r.provider_name))) ↔
      2 ≤ ((healthcheck s).map (fun r => r.provider_name)).count x := by
    intro x
    rw [mem_jsSetOf, mem_laterOccurrences_iff_count]
  by_cases hlen :
      (jsSetOf (laterOccurrences ((healthcheck s).map (fun r => r.provider_name)))).length > 0
  · have hfalse : healthHandler s =
        { healthy := false,
          duplicateIngestions :=
            some (jsSetOf (laterOccurrences ((healthcheck s).map
              (fun r => r.provider_name)))) } := by
      rw [healthHandler]
      simp only [hlen, if_pos]
    rw [hfalse]
    refine ⟨⟨fun h => absurd h (by simp), fun hall => ?_⟩, fun h => absurd h (by simp),
      fun _ => ⟨_, rfl, fun p => ?_⟩⟩
    · obtain ⟨x, hx⟩ := List.exists_mem_of_length_pos hlen
      have := (hmem x).mp hx
      have := hall x
      omega
    · by_cases hp : 2 ≤ ((healthcheck s).map (fun r => r.provider_name)).count p
      · rw [if_pos hp]
        exact List.count_eq_one_of_mem (nodup_jsSetOf _) ((hmem p).mpr hp)
      · rw [if_neg hp]
        exact List.count_eq_zero.mpr (fun hc => hp ((hmem p).mp hc))
  · have htrue : healthHandler s = { healthy := true, duplicateIngestions := none } := by
      rw [healthHandler]
      simp [hlen]
    rw [htrue]
    have hempty : ∀ p, ¬ 2 ≤ ((healthcheck s).map (fun r => r.provider_name)).count p := by
      intro p hp
      have hpm := (hmem p).mpr hp
      have : 0 < (jsSetOf (laterOccurrences ((healthcheck s).map
          (fun r => r.provider_name)))).length := List.length_pos.mpr (by
        intro hnil
        rw [hnil] at hpm
        exact List.not_mem_nil p hpm)
      omega
    refine ⟨⟨fun _ p => ?_, fun _ => rfl⟩, fun _ => rfl, fun h => absurd h (by simp)⟩
    have := hempty p
    omega

/-- A sample active ingestion record used by the witnesses. -/
def sampleRecord : IngestionRecord :=
  { id := 1, provider_name := "foo", status := "ingesting",
    next_action := "ingest next page", next_action_at := 1000,
    ingestion_completed_at := none, last_error := none }

/-- A sample store holding one active record, used by the witnesses. -/
def sampleStore : Store := { records := [sampleRecord], marks := [] }

/-- The empty store, used by the witnesses. -/
def emptyStore : Store := { records := [], marks := [] }

/-- C2: the provider status route answers 200 with success true and the record status,
next action time and last error when a current record exists, 200 with the rest-complete
action when the provider is known but has no current record, and 404 with success false
and the not-found error otherwise. -/
theorem status_route_discrimination (s : Store) (provider : String) :
    (∀ record, getCurrentIngestionRecord s provider = some record →
        statusHandler s provider =
          ({ httpStatus := 200, success := true, current_action := some record.status,
             next_action_at := some record.next_action_at,
             last_error := some record.last_error }, []))
    ∧ (getCurrentIngestionRecord s provider = none → provider ∈ listProviders s →
        statusHandler s provider =
          ({ httpStatus := 200, success := true,
             current_action := some "rest complete, waiting to start",
             next_action_at := none, last_error := none }, []))
    ∧ (getCurrentIngestionRecord s provider = none → provider ∉ listProviders s →
        statusHandler s provider =
          ({ httpStatus := 404, success := false, current_action := none,
             next_action_at := none,
             last_error := some (some ("Provider '" ++ provider ++ "' not found")) },
           [])) := by
  refine ⟨?_, ?_, ?_⟩
  · intro record h
    simp [statusHandler, h]
  · intro h hmem
    simp [statusHandler, h, hmem]
  · intro h hmem
    simp [statusHandler, h, hmem]

/-- C2 witness: at the empty store the status route answers 404 for an unknown
provider. -/
theorem status_route_discrimination_witness :
    statusHandler emptyStore "ghost" =
      ({ httpStatus := 404, success := false, current_action := none,
         next_action_at := none,
         last_error := some (some ("Provider '" ++ "ghost" ++ "' not found")) }, []) :=
  (status_route_discrimination emptyStore "ghost").2.2 (by decide) (by decide)

/-- C3: for a provider with a current record, the cancel route issues exactly one
updateByName call setting status resting, next action nothing done, completion time
now and next action time now plus 24 hours in milliseconds, and responds success
true. -/
theorem cancel_route_cooldown (s : Store) (provider : String) (now : Int)
    (record : IngestionRecord)
    (h : getCurrentIngestionRecord s provider = some record) :
    cancelHandler s provider now =
      ({ httpStatus := 200, success := true,
         message := provider ++ ": Current ingestion canceled." },
       [MgrCall.updateByName provider
          { next_action := "nothing (done)", ingestion_completed_at := some now,
            next_action_at := now + 24 * 60 * 60 * 1000, status := "resting" }]) := by
  simp [cancelHandler, h]

/-- C3 witness: canceling the sample provider at time zero issues the resting update
with next action time exactly 86400000 milliseconds later. -/
theorem cancel_route_cooldown_witness :
    cancelHandler sampleStore "foo" 0 =
      ({ httpStatus := 200, success := true,
         message := "foo" ++ ": Current ingestion canceled." },
       [MgrCall.updateByName "foo"
          { next_action := "nothing (done)", ingestion_completed_at := some 0,
            next_action_at := 0 + 24 * 60 * 60 * 1000, status := "resting" }]) :=
  cancel_route_cooldown sampleStore "foo" 0 sampleRecord (by decide)

/-- C4: for a provider with a current record, the start route issues exactly one
manager call, setProviderComplete on the record id when the record status is resting
and setProviderCanceling on it in every other case, responds success true, and issues
no record-creating call. -/
theorem start_route_branches (s : Store) (provider : String)
    (record : IngestionRecord)
    (h : getCurrentIngestionRecord s provider = some record) :
    startHandler s provider =
      ({ httpStatus := 200, success := true,
         message := provider ++ ": Next cycle triggered." },
       [if record.status == "resting" then MgrCall.setProviderComplete record.id
        else MgrCall.setProviderCanceling record.id]) := by
  simp [startHandler, h]

/-- C4 witness: starting the sample provider, whose record is ingesting, issues the
setProviderCanceling call on its record id. -/
theorem start_route_branches_witness :
    startHandler sampleStore "foo" =
      ({ httpStatus := 200, success := true,
         message := "foo" ++ ": Next cycle triggered." },
       [MgrCall.setProviderCanceling 1]) := by
  have h := start_route_branches sampleStore "foo" sampleRecord (by decide)
  simpa [sampleRecord] using h

/-- C6: the trigger route issues the triggerNextProviderAction call exactly when a
current record exists, in which case it responds success true; when the provider is
known but has no current record it responds success true with the restarting message
and triggers nothing; otherwise it responds 404 with the not-found message. -/
theorem trigger_route_discrimination (s : Store) (provider : String) :
    ((∃ record, getCurrentIngestionRecord s provider = some record) ↔
        (triggerHandler s provider).2 = [MgrCall.triggerNextProviderAction provider])
    ∧ (∀ record, getCurrentIngestionRecord s provider = some record →
        (triggerHandler s provider).1 =
          { httpStatus := 200, success := true,
            message := provider ++ ": Next action triggered." })
    ∧ (getCurrentIngestionRecord s provider = none → provider ∈ listProviders s →
        triggerHandler s provider =
          ({ httpStatus := 200, success := true,
             message := "Unable to trigger next action (provider is restarting)" }, []))
    ∧ (getCurrentIngestionRecord s provider = none → provider ∉ listProviders s →
        triggerHandler s provider =
          ({ httpStatus := 404, success := false,
             message := "Provider '" ++ provider ++ "' not found" }, [])) := by
  refine ⟨?_, ?_, ?_, ?_⟩
  · constructor
    · rintro ⟨record, hr⟩
      simp [triggerHandler, hr]
    · intro htr
      rcases hrec : getCurrentIngestionRecord s provider with _ | record
      · exfalso
        by_cases hmem : provider ∈ listProviders s <;>
          simp [triggerHandler, hrec, hmem] at htr
      · exact ⟨record, rfl⟩
  · intro record h
    simp [triggerHandler, h]
  · intro h hmem
    simp [triggerHandler, h, hmem]
  · intro h hmem
    simp [triggerHandler, h, hmem]

/-- C6 witness: triggering the sample provider, which has a current record, answers
with the triggered message. -/
theorem trigger_route_discrimination_witness :
    (triggerHandler sampleStore "foo").1 =
      { httpStatus := 200, success := true,
        message := "foo" ++ ": Next action triggered." } :=
  (trigger_route_discrimination sampleStore "foo").2.1 sampleRecord (by decide)

/-- C9: the delete-marks route responds 200 with success true, the removal message and
the deletions count of clearFinishedIngestions for every store and every provider name,
known or never seen: it makes no known-provider discrimination and has no 404
branch. -/
theorem delete_marks_route_no_discrimination (s : Store) (provider : String)
    (now retention : Int) :
    (deleteMarksHandler s provider now retention).1.httpStatus = 200
    ∧ (deleteMarksHandler s provider now retention).1.success = true
    ∧ (deleteMarksHandler s provider now retention).1.message =
        "Expired marks for provider '" ++ provider ++ "' removed."
    ∧ (deleteMarksHandler s provider now retention).1.deletions =
        (clearFinishedIngestions s provider now retention).2 :=
  ⟨rfl, rfl, rfl, rfl⟩

/-- C10: for a provider with no current record that is absent from listProviders, the
404 branches of the status, trigger, start, cancel and marks routes invoke no
state-mutating manager call, leaving the record store and the mark store untouched. -/
theorem unknown_provider_no_mutation (s : Store) (provider : String) (now : Int)
    (hrec : getCurrentIngestionRecord s provider = none)
    (hunk : provider ∉ listProviders s) :
    (statusHandler s provider).2 = []
    ∧ (triggerHandler s provider).2 = []
    ∧ (startHandler s provider).2 = []
    ∧ (cancelHandler s provider now).2 = []
    ∧ (marksHandler s provider).2 = [] := by
  refine ⟨?_, ?_, ?_, ?_, ?_⟩ <;>
    simp [statusHandler, triggerHandler, startHandler, cancelHandler, marksHandler,
      hrec, hunk]

/-- C10 witness: at the empty store, requests for an unknown provider on all five
routes issue no manager call. -/
theorem unknown_provider_no_mutation_witness :
    (statusHandler emptyStore "ghost").2 = []
    ∧ (triggerHandler emptyStore "ghost").2 = []
    ∧ (startHandler emptyStore "ghost").2 = []
    ∧ (cancelHandler emptyStore "ghost" 0).2 = []
    ∧ (marksHandler emptyStore "ghost").2 = [] :=
  unknown_provider_no_mutation emptyStore "ghost" 0 (by decide) (by decide)

/-- An out-of-order mark of the sample record, used by the C8 witness. -/
def lateMark : IngestionMark :=
  { id := 10, ingestion_record_id := 1, cursor := "page-2", sequence := 2,
    created_at := 5 }

/-- An earlier mark of the sample record, used by the C8 witness. -/
def earlyMark : IngestionMark :=
  { id := 11, ingestion_record_id := 1, cursor := "page-1", sequence := 1,
    created_at := 3 }

/-- A store whose mark table holds the sample marks out of order, used by the C8
witness. -/
def markStore : Store := { records := [sampleRecord], marks := [lateMark, earlyMark] }

/-- C8: the marks route returns, for a current record, success true and the marks of
that record ordered ascending by sequence (a sorted permutation of the marks belonging
to the record); when the provider is known but has no current record it returns success
true with the restarting message; for an unknown provider it returns 404. -/
theorem marks_route_ordered (s : Store) (provider : String) :
    (∀ record, getCurrentIngestionRecord s provider = some record →
        marksHandler s provider =
          ({ httpStatus := 200, success := true,
             records := some (getAllMarks s record.id),
             message := none, last_error := none }, [])
        ∧ List.Sorted markLE (getAllMarks s record.id)
        ∧ List.Perm (getAllMarks s record.id)
            (s.marks.filter (fun m => m.ingestion_record_id == record.id)))
    ∧ (getCurrentIngestionRecord s provider = none → provider ∈ listProviders s →
        marksHandler s provider =
          ({ httpStatus := 200, success := true, records := none,
             message := some "No records yet (provider is restarting)",
             last_error := none }, []))
    ∧ (getCurrentIngestionRecord s provider = none → provider ∉ listProviders s →
        marksHandler s provider =
          ({ httpStatus := 404, success := false, records := none, message := none,
             last_error := some ("Provider '" ++ provider ++ "' not found") },
           [])) := by
  refine ⟨?_, ?_, ?_⟩
  · intro record h
    refine ⟨by simp [marksHandler, h], ?_, ?_⟩
    · unfold getAllMarks
      exact List.sorted_insertionSort markLE _
    · unfold getAllMarks
      exact List.perm_insertionSort markLE _
  · intro h hmem
    simp [marksHandler, h, hmem]
  · intro h hmem
    simp [marksHandler, h, hmem]

/-- C8 witness: for the sample provider the route returns the two stored marks sorted
into ascending sequence order. -/
theorem marks_route_ordered_witness :
    marksHandler markStore "foo" =
      ({ httpStatus := 200, success := true,
         records := some [earlyMark, lateMark],
         message := none, last_error := none }, []) := by
  have h := ((marks_route_ordered markStore "foo").1 sampleRecord (by decide)).1
  rw [h]
  decide

/-- The pattern occurs at the very end of the appended list. -/
lemma containsSeg_append (pre pat : List Char) : containsSeg pat (pre ++ pat) = true := by
  induction pre with
  | nil =>
    cases pat with
    | nil => rfl
    | cons c rest =>
      have hpre : (c :: rest).isPrefixOf (c :: rest) = true :=
        List.isPrefixOf_iff_prefix.mpr (List.prefix_refl _)
      simp [containsSeg, hpre]
  | cons c pre ih =>
    have hstep : containsSeg pat ((c :: pre) ++ pat) =
        (pat.isPrefixOf ((c :: pre) ++ pat) || containsSeg pat (pre ++ pat)) := rfl
    rw [hstep, ih, Bool.or_true]

/-- Whether the second string contains the first as a contiguous substring. -/
def strContains (pat s : String) : Bool := containsSeg pat.data s.data

/-- A string contains every suffix appended to another string. -/
lemma strContains_append (pre pat : String) : strContains pat (pre ++ pat) = true := by
  rw [strContains, String.data_append]
  exact containsSeg_append pre.data pat.data

/-- C7 counterexample: with the broker unavailable, the delta route responds 500 with
the fixed message and makes no publish attempt; that message does not contain the text
of the initialization error the handler throws, so the claim that the unavailable case
also echoes a stringified form of the error in the response message is false as
stated. -/
theorem delta_route_unavailable_no_echo :
    deltaHandler BrokerBehavior.unavailable "acme" (0 : Nat) =
      ({ httpStatus := 500, success := false, provider := "acme",
         message := "The payload could not be processed!" }, none)
    ∧ strContains "Event broker not initialized!"
        "The payload could not be processed!" = false :=
  ⟨rfl, by decide⟩

/-- C7 amended: the delta route forwards the body on topic provider-push whenever the
broker is available, and responds 500 with success false both when the broker is
unavailable and when publish fails; the stringified error is echoed in the response
message only in the publish-failure case, while the unavailable case responds with the
fixed message and makes no publish attempt; a successful publish responds success
true. -/
theorem delta_route_behavior {α : Type} (provider : String) (body : α) :
    (deltaHandler BrokerBehavior.unavailable provider body =
        ({ httpStatus := 500, success := false, provider := provider,
           message := "The payload could not be processed!" }, none))
    ∧ (deltaHandler BrokerBehavior.publishes provider body =
        ({ httpStatus := 200, success := true, provider := provider,
           message := "Payload submitted." },
         some { topic := provider ++ "-push", eventPayload := body }))
    ∧ (∀ e, deltaHandler (BrokerBehavior.failing e) provider body =
        ({ httpStatus := 500, success := false, provider := provider,
           message := "There was an error submitting the payload: " ++ e },
         some { topic := provider ++ "-push", eventPayload := body }))
    ∧ (∀ e, strContains e
         ("There was an error submitting the payload: " ++ e) = true) :=
  ⟨rfl, rfl, fun _ => rfl, fun e => strContains_append _ e⟩

/-- The active-record count is a countP over the record table. -/
lemma activeCount_eq_countP (s : Store) (p : String) :
    activeCount s p =
      s.records.countP (fun r => r.provider_name == p && r.status != "resting") := by
  rw [activeCount, ← List.countP_eq_length_filter]

/-- Every single atomic store step preserves the at-most-one-active invariant. -/
lemma storeStep_preserves_invariant (s s2 : Store) (st : StoreStep s s2)
    (h : AtMostOneActive s) : AtMostOneActive s2 := by
  cases st with
  | createCycle r hnone hstatus =>
    intro p
    rw [AtMostOneActive] at h
    have hcount := h p
    rw [activeCount_eq_countP] at hcount ⊢
    simp only [List.countP_cons]
    by_cases hp : r.provider_name = p
    · have hzero :
          s.records.countP (fun a => a.provider_name == p && a.status != "resting") = 0 := by
        rw [List.countP_eq_zero]
        intro a ha
        have hnot := List.find?_eq_none.mp hnone a ha
        rw [← hp]
        exact hnot
      rw [hzero]
      have : (r.provider_name == p && r.status != "resting") = true := by
        rw [hp, hstatus]
        simp
      rw [this]
      simp
    · have : (r.provider_name == p && r.status != "resting") = false := by
        have : (r.provider_name == p) = false := beq_eq_false_iff_ne.mpr hp
        rw [this]
        simp
      rw [this]
      simpa using hcount
  | condUpdate rid expected u hexp =>
    intro p
    have hcount := h p
    rw [activeCount_eq_countP] at hcount ⊢
    simp only [List.countP_map]
    refine le_trans (le_trans (List.countP_mono_left ?_) (le_of_eq rfl)) hcount
    intro a _ ha
    by_cases hcond : (a.id == rid && a.status == expected) = true
    · have hstat : a.status = expected :=
        beq_iff_eq.mp ((Bool.and_eq_true _ _).mp hcond).2
      simp [Function.comp, hcond, applyUpdate] at ha
      simp only [Bool.and_eq_true, beq_iff_eq, bne_iff_ne, ne_eq]
      exact ⟨ha.1, by rw [hstat]; exact hexp⟩
    · simp [Function.comp, hcond] at ha
      simpa using ha
  | appendMark m =>
    intro p
    exact h p

/-- C5: the at-most-one-active-record-per-provider invariant is preserved by every
interleaving of the atomic store operations, so it holds at every point of a concurrent
execution of triggers that starts from a state satisfying it. -/
theorem invariant_at_most_one_active (s s2 : Store) (h0 : AtMostOneActive s)
    (h : StoreSteps s s2) : AtMostOneActive s2 := by
  have h2 : Relation.ReflTransGen StoreStep s s2 := h
  clear h
  induction h2 with
  | refl => exact h0
  | tail hab hbc ih => exact storeStep_preserves_invariant _ _ hbc ih

/-- The resting update used by the C5 witness. -/
def restUpdate : RecordUpdate :=
  { next_action := "nothing (done)", ingestion_completed_at := some 0,
    next_action_at := 86400000, status := "resting" }

/-- C5 witness: a concrete two-step interleaving, creating a cycle for the sample
provider on the empty store and then conditionally updating it to resting, ends in a
state satisfying the invariant. -/
theorem invariant_at_most_one_active_witness :
    AtMostOneActive { records := [applyUpdate sampleRecord restUpdate], marks := [] } := by
  have h0 : AtMostOneActive emptyStore := by
    intro p
    simp [activeCount, emptyStore]
  have step1 : StoreStep emptyStore sampleStore :=
    StoreStep.createCycle emptyStore sampleRecord (by decide) (by decide)
  have step2 : StoreStep sampleStore
      { records := [applyUpdate sampleRecord restUpdate], marks := [] } :=
    StoreStep.condUpdate sampleStore 1 "ingesting" restUpdate (by decide)
  exact invariant_at_most_one_active emptyStore _ h0
    (Relation.ReflTransGen.tail (Relation.ReflTransGen.single step1) step2)

end IncrementalIngestion
